import Mathlib

/-!
Verification of the dependency-resolution and native-build pipeline of
influxdata/pkg-config (libs/flux/build.go) against its specification.

The Go code is shallowly embedded: pure functions become Lean functions,
subprocess boundaries (`git describe`, `go mod download -json`, `filepath.Abs`,
`go env GOCACHE`) become explicit oracle parameters, and the filesystem touched
by `copyIfReadOnly` becomes an explicit state record.  Strings are Lean
`String`s; the two regular expressions in build.go are embedded as executable
matchers over `List Char` with Go's leftmost-first matching discipline.
-/

deriving instance DecidableEq for Except

namespace PkgConfig

/-- `strings.HasPrefix(s, p)`: byte-level prefix test, embedded on the
character lists underlying the strings. -/
def strStarts (s p : String) : Bool :=
  p.data.isPrefixOf s.data

/-- `Target` (build.go 25-30): OS, architecture, ARM sub-variant, static flag. -/
structure Target where
  OS : String
  Arch : String
  Arm : String
  Static : Bool
deriving DecidableEq, Repr

/-- `Target.String()` (build.go 32-41): `<os>_<arch>`, then `v<arm>` when the ARM
sub-variant is set, then `_static` when static linking was requested. -/
def Target.render (t : Target) : String :=
  (t.OS ++ "_" ++ t.Arch)
    ++ (if t.Arm != "" then "v" ++ t.Arm else "")
    ++ (if t.Static then "_static" else "")

/-- `Target.DetermineCargoTarget` (build.go 44-66).  First component: the cargo
triple returned; second component: whether the default branch logged its
"Unable to determine cargo target" warning. -/
def Target.DetermineCargoTarget (t : Target) : String × Bool :=
  if t.OS == "linux" && t.Arch == "amd64" && t.Static then
    ("x86_64-unknown-linux-musl", false)
  else if t.OS == "linux" && t.Arch == "amd64" && !t.Static then
    ("x86_64-unknown-linux-gnu", false)
  else if t.OS == "linux" && t.Arch == "386" && !t.Static then
    ("i686-unknown-linux-gnu", false)
  else if t.OS == "linux" && t.Arch == "arm" && t.Arm == "6" && !t.Static then
    ("arm-unknown-linux-gnueabihf", false)
  else if t.OS == "linux" && t.Arch == "arm" && t.Arm == "7" && !t.Static then
    ("armv7-unknown-linux-gnueabihf", false)
  else if t.OS == "linux" && t.Arch == "arm64" && !t.Static then
    ("aarch64-unknown-linux-gnueabihf", false)
  else if t.OS == "darwin" && t.Arch == "amd64" then
    ("x86_64-apple-darwin", false)
  else if t.OS == "windows" && t.Arch == "amd64" then
    ("x86_64-pc-windows-gnu", false)
  else
    ("", true)

/-- The disjunction of the eight guard conditions of the `switch` in
`DetermineCargoTarget`: whether the target appears in the enumerated table. -/
def cargoTableHit (t : Target) : Bool :=
  (t.OS == "linux" && t.Arch == "amd64" && t.Static) ||
  (t.OS == "linux" && t.Arch == "amd64" && !t.Static) ||
  (t.OS == "linux" && t.Arch == "386" && !t.Static) ||
  (t.OS == "linux" && t.Arch == "arm" && t.Arm == "6" && !t.Static) ||
  (t.OS == "linux" && t.Arch == "arm" && t.Arm == "7" && !t.Static) ||
  (t.OS == "linux" && t.Arch == "arm64" && !t.Static) ||
  (t.OS == "darwin" && t.Arch == "amd64") ||
  (t.OS == "windows" && t.Arch == "amd64")

/-- `Library` (build.go 68-73). -/
structure Library where
  Path : String
  Version : String
  Dir : String
  Target : Target
deriving DecidableEq, Repr

/-- The flux module path constant (build.go 75). -/
def modulePath : String := "github.com/influxdata/flux"

/-! ### The two regular expressions of build.go, as executable matchers -/

/-- Consume one or more leading decimal digits (`\d+`): the digit run and the
remainder, or `none` when the first character is not a digit. -/
def spanDigits (s : List Char) : Option (List Char × List Char) :=
  match s.takeWhile Char.isDigit with
  | [] => none
  | d => some (d, s.dropWhile Char.isDigit)

/-- Match the fragment `v\d+\.\d+\.\d+` at the head of the character list.
Returns the three digit runs and the unconsumed remainder.  The `\d+` runs are
greedy, which is exact here because the following character `.` is not a digit. -/
def matchSemverHead : List Char → Option (List Char × List Char × List Char × List Char)
  | 'v' :: s =>
    match spanDigits s with
    | none => none
    | some (a, s) =>
      match s with
      | '.' :: s =>
        match spanDigits s with
        | none => none
        | some (b, s) =>
          match s with
          | '.' :: s =>
            match spanDigits s with
            | none => none
            | some (c, s) => some (a, b, c, s)
          | _ => none
      | _ => none
  | _ => none

/-- `FindStringSubmatch` of `(v\d+\.\d+\.\d+)(-.*)?` (build.go 375-376): scan
left to right for the first position where the version fragment matches and
return its digit runs plus the remainder after the patch digits.  The optional
group `(-.*)?` participates exactly when the remainder begins with `-`, which
is all `getVersionFromGit` inspects (`m[2] == ""`). -/
def findVersionMatch : List Char → Option (List Char × List Char × List Char × List Char)
  | [] => none
  | ch :: s =>
    match matchSemverHead (ch :: s) with
    | some r => some r
    | none => findVersionMatch s

/-- `strconv`-style reading of a digit run, as `semver.NewVersion` does for each
dotted component (leading zeros collapse: "01" reads as 1). -/
def digitsToNat (ds : List Char) : Nat :=
  ds.foldl (fun n ch => 10 * n + (ch.toNat - '0'.toNat)) 0

/-- `getVersionFromGit` (build.go 362-391), as a function of the
whitespace-trimmed stdout of the `git describe` subprocess.
No suffix after the tag: return `m[1][1:]`, the tag text with its leading `v`
stripped.  Suffix present (commits past the tag): `semver.NewVersion(m[1])`
then `IncMinor()` — patch reset to 0, minor incremented, pre-release and
metadata cleared — and return `"v" + v.String()`. -/
def getVersionFromGit (versionStr : String) : Except String String :=
  match findVersionMatch versionStr.data with
  | none => .error ("invalid tag version format: " ++ versionStr)
  | some (a, b, c, rest) =>
    match rest with
    | '-' :: _ =>
      .ok ("v" ++ Nat.repr (digitsToNat a) ++ "." ++ Nat.repr (digitsToNat b + 1) ++ ".0")
    | _ =>
      .ok ((a ++ '.' :: (b ++ '.' :: c)).asString)

/-- The literal part of the path regular expression of `getVersionFromPath`
(build.go 354): `/github\.com/influxdata\/flux@`. -/
def fluxAt : List Char := "/github.com/influxdata/flux@".data

/-- Whether `(v\d+\.\d+\.\d+.*)$` matches here: the version fragment, and the
rest of the string free of newlines (`.` does not cross `\n`, `$` is end of
text). -/
def matchVersionToEnd (s : List Char) : Bool :=
  match matchSemverHead s with
  | some (_, _, _, rest) => rest.all (fun ch => ch != '\n')
  | none => false

/-- Leftmost match of `/github\.com/influxdata\/flux@(v\d+\.\d+\.\d+.*)$`:
the capture group runs from the `v` after the `@` to the end of the string. -/
def pathCapture : List Char → Option (List Char)
  | [] => none
  | ch :: s =>
    if fluxAt.isPrefixOf (ch :: s) && matchVersionToEnd ((ch :: s).drop fluxAt.length) then
      some ((ch :: s).drop fluxAt.length)
    else
      pathCapture s

/-- `getVersionFromPath` (build.go 353-360). -/
def getVersionFromPath (dir : String) : Except String String :=
  match pathCapture dir.data with
  | some v => .ok v.asString
  | none => .error ("directory path did not match the module pattern: " ++ dir)

/-- Whether the flux module marker occurs anywhere in the character list
(leftmost-scan occurrence of the literal `fluxAt`). -/
def hasFluxAt : List Char → Bool
  | [] => false
  | ch :: s => fluxAt.isPrefixOf (ch :: s) || hasFluxAt s

/-- `getVersion` (build.go 337-351): try the path derivation, then the git
derivation, else fail with the fixed error.  `describe` is the outcome of the
`git describe` subprocess run in `dir`: `.error ()` for a non-zero exit,
`.ok out` for its trimmed stdout. -/
def getVersion (describe : Except Unit String) (dir : String) : Except String String :=
  match getVersionFromPath dir with
  | .ok v => .ok v
  | .error _ =>
    match describe with
    | .error _ => .error "unable to determine flux repository version"
    | .ok out =>
      match getVersionFromGit out with
      | .ok v => .ok v
      | .error _ => .error "unable to determine flux repository version"

/-- Whether `getVersion` reaches its git branch: only when the path derivation
fails (build.go 338-344). -/
def getVersionUsesGit (dir : String) : Bool :=
  match getVersionFromPath dir with
  | .ok _ => false
  | .error _ => true

/-! ### Module graph and module resolution -/

/-- `module.Version` (internal/module): identity plus version string. -/
structure ModVersion where
  Path : String
  Version : String
deriving DecidableEq, Repr

/-- One `replace` directive of the manifest (`modfile.Replace`): old and new
identity/version pairs. -/
structure ReplaceDirective where
  Old : ModVersion
  New : ModVersion
deriving DecidableEq, Repr

/-- `modfile.File` as consumed by `findModule`: the main module identity
(`mod.Module.Mod`), the `replace` directives, and the `require` entries
(each entry's `Mod` field). -/
structure ModFile where
  Module : ModVersion
  Replace : List ReplaceDirective
  Require : List ModVersion
deriving DecidableEq, Repr

/-- The decoded JSON object printed by `go mod download -json`: its `Dir`,
`Path` and `Version` fields (build.go 326-330). -/
structure DownloadResult where
  Dir : String
  Path : String
  Version : String
deriving DecidableEq, Repr

/-- `downloadModule` (build.go 313-335): run `go mod download -json` on the
constant `modulePath` — the requested module is not a parameter — and read
(identity, version, directory) out of the JSON result.  `download` abstracts
the subprocess plus JSON decoding, as a function of the requested module
string. -/
def downloadModule (download : String → Except Unit DownloadResult) :
    Except String (ModVersion × String) :=
  match download modulePath with
  | .error _ => .error "go mod download failed"
  | .ok m => .ok (⟨m.Path, m.Version⟩, m.Dir)

/-- `getModule` (build.go 289-310).  A path beginning with `/` or `.` is a
filesystem reference: version from `getVersion`, directory from
`filepath.Abs` (abstracted as `abs`), and the returned `module.Version`
carries only the version (its `Path` field stays the zero value `""`).
Anything else goes through `downloadModule`. -/
def getModule (describe : String → Except Unit String) (abs : String → String)
    (download : String → Except Unit DownloadResult) (ver : ModVersion) :
    Except String (ModVersion × String) :=
  if strStarts ver.Path "/" || strStarts ver.Path "." then
    match getVersion (describe ver.Path) ver.Path with
    | .error e => .error e
    | .ok v => .ok (⟨"", v⟩, abs ver.Path)
  else
    downloadModule download

/-- The argument `getModule` hands to `go mod download -json`, when it fetches
at all: always the constant `modulePath` (build.go 316), never the incoming
identity. -/
def getModuleFetchArg (ver : ModVersion) : Option String :=
  if strStarts ver.Path "/" || strStarts ver.Path "." then none
  else some modulePath

/-- `findModule` (build.go 258-286): main-module check, then the first matching
`replace` directive, then the first matching `require` entry, else the
"could not find" error. -/
def findModule (modroot : String) (describe : String → Except Unit String)
    (abs : String → String) (download : String → Except Unit DownloadResult)
    (mod : ModFile) : Except String (ModVersion × String) :=
  if mod.Module.Path == modulePath then
    match getVersion (describe modroot) modroot with
    | .error e => .error e
    | .ok v => .ok (⟨modulePath, v⟩, modroot)
  else
    match mod.Replace.find? (fun r => r.Old.Path == modulePath) with
    | some r => getModule describe abs download r.New
    | none =>
      match mod.Require.find? (fun m => m.Path == modulePath) with
      | some m => getModule describe abs download m
      | none => .error ("could not find " ++ modulePath ++ " module")

/-! ### Build environment sanitization -/

/-- `removeEnvVar` (build.go 443-453): delete the first entry carrying the
prefix `key=` (the loop breaks after the first hit), keep everything else. -/
def removeEnvVar (env : List String) (key : String) : List String :=
  match env with
  | [] => []
  | kv :: rest =>
    if strStarts kv (key ++ "=") then rest
    else kv :: removeEnvVar rest key

/-- The environment handed to `cargo build` (build.go 208-220): the ambient
environment, with CC, CXX and AR removed — in that order — exactly when a
non-empty cargo target triple was determined. -/
def buildEnv (t : Target) (env : List String) : List String :=
  if (t.DetermineCargoTarget).1 != "" then
    removeEnvVar (removeEnvVar (removeEnvVar env "CC") "CXX") "AR"
  else env

/-- Number of environment entries carrying the prefix `key=`. -/
def countKeyEntries (env : List String) (key : String) : Nat :=
  (env.filter (fun kv => strStarts kv (key ++ "="))).length

/-! ### Scratch copy -/

/-- Abstract filesystem state for `copyIfReadOnly`: which paths `os.Stat`
finds, and which of those carry the owner-write bit (`st.Mode()&0200`). -/
structure FS where
  found : String → Bool
  writable : String → Bool

/-- The scratch destination `filepath.Join(cache, "pkgconfig", l.Path+"@"+l.Version)`
(build.go 156), with `/` separators. -/
def scratchDir (cache : String) (l : Library) : String :=
  cache ++ "/pkgconfig/" ++ l.Path ++ "@" ++ l.Version

/-- Effect of the recursive `filepath.Walk` copy (build.go 163-191) on the
filesystem: the destination tree now exists, and is writable because every
file and directory in it was freshly created by `os.Create`/`os.MkdirAll`.
The walk is modelled as succeeding; a mid-copy I/O error aborts
`copyIfReadOnly` with the walk's error and is outside the claims below. -/
def FS.afterCopy (fs : FS) (dst : String) : FS :=
  { found := fun p => p == dst || fs.found p,
    writable := fun p => p == dst || fs.writable p }

/-- `copyIfReadOnly` (build.go 141-195).  `cache` abstracts `getGoCache()`.
Result: the filesystem after the call, the library after the call, and whether
the recursive copy actually ran. -/
def copyIfReadOnly (fs : FS) (cache : String) (l : Library) :
    Except String (FS × Library × Bool) :=
  if !(fs.found l.Dir) then .error "stat failed"
  else if fs.writable l.Dir then .ok (fs, l, false)
  else
    let srcdir := scratchDir cache l
    if fs.found srcdir then .ok (fs, { l with Dir := srcdir }, false)
    else .ok (fs.afterCopy srcdir, { l with Dir := srcdir }, true)

/-! ### Package-description output -/

/-- The successive strings `WritePackageConfig` (build.go 231-254) hands to its
writer, in order.  `filepath.Join(l.Dir, "libflux")` is modelled as
`l.Dir ++ "/libflux"`; the `Version` line carries `l.Version[1:]`, the stored
version with its first character removed. -/
def packageConfigWrites (l : Library) : List String :=
  [ "prefix=" ++ l.Dir ++ "/libflux" ++ "\n",
    "target=" ++ l.Target.render ++ "\n",
    "exec_prefix=$\x7bprefix\x7d\nlibdir=$\x7bexec_prefix\x7d/lib/$\x7btarget\x7d\nincludedir=$\x7bprefix\x7d/include\n\nName: Flux\n",
    "Version: " ++ (l.Version.data.drop 1).asString ++ "\n",
    "Description: Library for the InfluxData Flux engine\n",
    (if l.Target.OS == "linux" then
      (if l.Target.Static then "Libs: -L$\x7blibdir\x7d -lflux -llibstd -ldl -lpthread\n"
       else "Libs: -L$\x7blibdir\x7d -lflux -llibstd -ldl\n")
     else "Libs: -L$\x7blibdir\x7d -lflux -llibstd\n"),
    "Cflags: -I$\x7bincludedir\x7d\n" ]

/-- Run a list of writes against an abstract `io.Writer`.  A write takes the
writer state and the string and returns the new state plus a possible error;
the error is dropped on the floor, mirroring the `_, _ = fmt.Fprintf(...)`
discards in the source. -/
def runWrites {σ ε : Type} (write : σ → String → σ × Option ε) :
    σ → List String → σ
  | st, [] => st
  | st, x :: xs => runWrites write (write st x).1 xs

/-- `WritePackageConfig` (build.go 231-254): perform every write, ignoring each
write's error, and return `nil` (here `none`) unconditionally. -/
def WritePackageConfig {σ ε : Type} (write : σ → String → σ × Option ε)
    (st : σ) (l : Library) : σ × Option ε :=
  (runWrites write st (packageConfigWrites l), none)

/-! ### Claim C7: the cargo target table -/

/-- Claim C7: for OS `linux`, architecture `amd64`, the static target maps to the
musl triple and the non-static target to the glibc triple; every target matching
none of the eight enumerated table entries yields the empty triple together with
the recorded warning, not a failure. -/
theorem c7_cargo_target :
    Target.DetermineCargoTarget ⟨"linux", "amd64", "", true⟩ = ("x86_64-unknown-linux-musl", false)
    ∧ Target.DetermineCargoTarget ⟨"linux", "amd64", "", false⟩ = ("x86_64-unknown-linux-gnu", false)
    ∧ ∀ t : Target, cargoTableHit t = false → Target.DetermineCargoTarget t = ("", true) := by
  refine ⟨by decide, by decide, ?_⟩
  intro t h
  unfold cargoTableHit at h
  simp only [Bool.or_eq_false_iff] at h
  obtain ⟨⟨⟨⟨⟨⟨⟨h1, h2⟩, h3⟩, h4⟩, h5⟩, h6⟩, h7⟩, h8⟩ := h
  unfold Target.DetermineCargoTarget
  rw [h1, h2, h3, h4, h5, h6, h7, h8]
  simp

/-- Witness for C7 at a target absent from the table. -/
theorem c7_cargo_target_witness :
    cargoTableHit ⟨"plan9", "mips", "", false⟩ = false
    ∧ Target.DetermineCargoTarget ⟨"plan9", "mips", "", false⟩ = ("", true) :=
  ⟨by decide, c7_cargo_target.2.2 ⟨"plan9", "mips", "", false⟩ (by decide)⟩

/-! ### Claim C10: `WritePackageConfig` discards every write error -/

/-- Claim C10: `WritePackageConfig` returns `nil` for every library and every
writer: each write's error is discarded, so even a writer that fails on every
write is reported back to the caller as success. -/
theorem c10_write_package_config_returns_nil {σ ε : Type}
    (write : σ → String → σ × Option ε) (st : σ) (l : Library) :
    (WritePackageConfig write st l).2 = none :=
  rfl

/-! ### Claim C1: the end-to-end Version line for tag v0.5.0 -/

/-- Claim C1 (code bug), evaluated at the failing input: for a module root whose
`git describe` prints `v0.5.0` (tag with no commits after it), the resolver
returns `0.5.0` (marker already stripped), `findModule` stores that version for
the main module, and `WritePackageConfig` — which strips the first character
again — emits `Version: .5.0`, not the specified `Version: 0.5.0`. -/
theorem c1_tagged_version_line :
    getVersionFromGit "v0.5.0" = .ok "0.5.0"
    ∧ findModule "/flux" (fun _ => .ok "v0.5.0") id (fun _ => .error ())
        ⟨⟨modulePath, ""⟩, [], []⟩ = .ok (⟨modulePath, "0.5.0"⟩, "/flux")
    ∧ "Version: .5.0\n"
        ∈ packageConfigWrites ⟨modulePath, "0.5.0", "/flux", ⟨"darwin", "amd64", "", false⟩⟩
    ∧ "Version: 0.5.0\n"
        ∉ packageConfigWrites ⟨modulePath, "0.5.0", "/flux", ⟨"darwin", "amd64", "", false⟩⟩ := by
  refine ⟨by decide, by decide, by decide, by decide⟩

/-! ### Claim C2: counterexample on the git-derived version strings -/

/-- Claim C2 is false as stated, at both of its own concrete inputs: describe
output `v1.2.3` yields `1.2.3` (the leading marker is stripped, not re-added),
and `v1.2.3-4-abcdef` yields plain `v1.3.0` — minor incremented but with no
pre-release marker at all (the result contains no `-`). -/
theorem c2_counterexample :
    getVersionFromGit "v1.2.3" = .ok "1.2.3"
    ∧ getVersionFromGit "v1.2.3" ≠ .ok "v1.2.3"
    ∧ getVersionFromGit "v1.2.3-4-abcdef" = .ok "v1.3.0"
    ∧ getVersionFromGit "v1.2.3-4-abcdef" ≠ .ok "v1.2.3"
    ∧ "v1.3.0".data.contains '-' = false := by
  refine ⟨by decide, by decide, by decide, by decide, by decide⟩

/-! ### Claim C5: which module the fetch subprocess is asked for -/

/-- Claim C5 is false as stated: resolving a replacement whose new identity is
`github.com/myfork/flux` (not a filesystem path) invokes `go mod download`
requesting the constant `modulePath`, not the replacement's new identity — a
download oracle that distinguishes the two request strings shows the fetched
result is the one for `github.com/influxdata/flux`. -/
theorem c5_counterexample :
    getModuleFetchArg ⟨"github.com/myfork/flux", "v0.1.0"⟩ = some "github.com/influxdata/flux"
    ∧ getModuleFetchArg ⟨"github.com/myfork/flux", "v0.1.0"⟩ ≠ some "github.com/myfork/flux"
    ∧ getModule (fun _ => .error ()) id
        (fun req => if req == "github.com/myfork/flux"
          then .ok ⟨"/forkdir", "github.com/myfork/flux", "v9.9.9"⟩
          else .ok ⟨"/fluxdir", "github.com/influxdata/flux", "v0.5.0"⟩)
        ⟨"github.com/myfork/flux", "v0.1.0"⟩
      = .ok (⟨"github.com/influxdata/flux", "v0.5.0"⟩, "/fluxdir") := by
  refine ⟨by decide, by decide, by decide⟩

/-- Claim C5 as amended: for a replacement new identity that is not a bare
filesystem path, `getModule` defers to `downloadModule`, which requests the
constant `modulePath`; the returned directory, identity, and version are the
fields parsed from the fetch's JSON result. -/
theorem c5_amended_fetch (describe : String → Except Unit String) (abs : String → String)
    (download : String → Except Unit DownloadResult) (ver : ModVersion)
    (h : (strStarts ver.Path "/" || strStarts ver.Path ".") = false) :
    getModule describe abs download ver = downloadModule download
    ∧ getModuleFetchArg ver = some modulePath
    ∧ ∀ m : DownloadResult, download modulePath = .ok m →
        getModule describe abs download ver = .ok (⟨m.Path, m.Version⟩, m.Dir) := by
  refine ⟨?_, ?_, ?_⟩
  · simp [getModule, h]
  · simp [getModuleFetchArg, h]
  · intro m hm
    simp [getModule, h, downloadModule, hm]

/-- Witness for C5's amended statement at the counterexample's input. -/
theorem c5_amended_fetch_witness :
    (strStarts "github.com/myfork/flux" "/" || strStarts "github.com/myfork/flux" ".") = false
    ∧ getModuleFetchArg ⟨"github.com/myfork/flux", "v0.1.0"⟩ = some modulePath :=
  ⟨by decide,
   (c5_amended_fetch (fun _ => .error ()) id (fun _ => .error ())
     ⟨"github.com/myfork/flux", "v0.1.0"⟩ (by decide)).2.1⟩

/-! ### Claim C6: filesystem-path identities are never fetched -/

/-- Claim C6: for a resolved module whose path begins with `/` or `.`, the fetch
branch is unreachable — `getModule`'s result does not depend on the download
oracle, no fetch argument exists, and the version comes from the Version
Resolver applied to that path (errors included). -/
theorem c6_filesystem_never_fetched (describe : String → Except Unit String)
    (abs : String → String) (d₁ d₂ : String → Except Unit DownloadResult)
    (ver : ModVersion)
    (h : strStarts ver.Path "/" = true ∨ strStarts ver.Path "." = true) :
    getModule describe abs d₁ ver = getModule describe abs d₂ ver
    ∧ getModuleFetchArg ver = none
    ∧ (∀ v, getVersion (describe ver.Path) ver.Path = .ok v →
        getModule describe abs d₁ ver = .ok (⟨"", v⟩, abs ver.Path))
    ∧ (∀ e, getVersion (describe ver.Path) ver.Path = .error e →
        getModule describe abs d₁ ver = .error e) := by
  have hc : (strStarts ver.Path "/" || strStarts ver.Path ".") = true := by
    rcases h with h | h <;> simp [h]
  refine ⟨?_, ?_, ?_, ?_⟩
  · simp [getModule, hc]
  · simp [getModuleFetchArg, hc]
  · intro v hv; simp [getModule, hc, hv]
  · intro e he; simp [getModule, hc, he]

/-- Witness for C6 at a relative filesystem path. -/
theorem c6_filesystem_never_fetched_witness :
    (strStarts "../flux" "." = true)
    ∧ getModuleFetchArg ⟨"../flux", ""⟩ = none :=
  ⟨by decide,
   (c6_filesystem_never_fetched (fun _ => .error ()) id (fun _ => .error ())
     (fun _ => .error ()) ⟨"../flux", ""⟩ (Or.inr (by decide))).2.1⟩

/-! ### Claim C4: `findModule` precedence -/

/-- Claim C4: `findModule` follows the strict precedence order of build.go
258-286.  Main-module match: result is the module root with the version
resolved there, independent of the download oracle (the fetch subprocess is
never consulted).  Otherwise the first matching replacement directive wins —
even when a matching require entry also exists — then the first matching
require entry, and with no match at all the module-not-found error. -/
theorem c4_find_module_precedence (modroot : String)
    (describe : String → Except Unit String) (abs : String → String)
    (d₁ d₂ : String → Except Unit DownloadResult) (mod : ModFile) :
    (mod.Module.Path = modulePath →
      findModule modroot describe abs d₁ mod = findModule modroot describe abs d₂ mod
      ∧ ∀ v, getVersion (describe modroot) modroot = .ok v →
          findModule modroot describe abs d₁ mod = .ok (⟨modulePath, v⟩, modroot))
    ∧ (mod.Module.Path ≠ modulePath →
      ∀ r, mod.Replace.find? (fun x => x.Old.Path == modulePath) = some r →
        findModule modroot describe abs d₁ mod = getModule describe abs d₁ r.New)
    ∧ (mod.Module.Path ≠ modulePath →
      mod.Replace.find? (fun x => x.Old.Path == modulePath) = none →
      ∀ m, mod.Require.find? (fun x => x.Path == modulePath) = some m →
        findModule modroot describe abs d₁ mod = getModule describe abs d₁ m)
    ∧ (mod.Module.Path ≠ modulePath →
      mod.Replace.find? (fun x => x.Old.Path == modulePath) = none →
      mod.Require.find? (fun x => x.Path == modulePath) = none →
      findModule modroot describe abs d₁ mod
        = .error ("could not find " ++ modulePath ++ " module")) := by
  refine ⟨?_, ?_, ?_, ?_⟩
  · intro hmain
    refine ⟨?_, ?_⟩
    · simp [findModule, hmain]
    · intro v hv
      simp [findModule, hmain, hv]
  · intro hmain r hr
    simp [findModule, hmain, hr]
  · intro hmain hr m hm
    simp [findModule, hmain, hr, hm]
  · intro hmain hr hm
    simp [findModule, hmain, hr, hm]

/-- Witness for C4: a manifest where a replacement directive and a require
entry both name the flux module; the replacement wins. -/
theorem c4_find_module_precedence_witness :
    ("example.com/app" ≠ modulePath)
    ∧ findModule "/root" (fun _ => .error ()) id (fun _ => .error ())
        ⟨⟨"example.com/app", ""⟩,
         [⟨⟨modulePath, ""⟩, ⟨"github.com/myfork/flux", "v0.1.0"⟩⟩],
         [⟨modulePath, "v0.2.0"⟩]⟩
      = getModule (fun _ => .error ()) id (fun _ => .error ())
          ⟨"github.com/myfork/flux", "v0.1.0"⟩ :=
  ⟨by decide,
   (c4_find_module_precedence "/root" (fun _ => .error ()) id (fun _ => .error ())
      (fun _ => .error ())
      ⟨⟨"example.com/app", ""⟩,
       [⟨⟨modulePath, ""⟩, ⟨"github.com/myfork/flux", "v0.1.0"⟩⟩],
       [⟨modulePath, "v0.2.0"⟩]⟩).2.1
    (by decide) ⟨⟨modulePath, ""⟩, ⟨"github.com/myfork/flux", "v0.1.0"⟩⟩ (by decide)⟩

/-! ### Claim C8: environment sanitization before the cargo build -/

/-- `removeEnvVar` yields a sublist of its input environment. -/
theorem removeEnvVar_sublist (env : List String) (key : String) :
    (removeEnvVar env key).Sublist env := by
  induction env with
  | nil => simp [removeEnvVar]
  | cons kv rest ih =>
    unfold removeEnvVar
    by_cases hkv : strStarts kv (key ++ "=") = true
    · simp [hkv]
    · simp only [hkv]
      simp only [Bool.false_eq_true, if_false]
      exact ih.cons₂ kv

/-- When the environment held at most one entry for `key`, none remains after
`removeEnvVar`. -/
theorem removeEnvVar_clears (env : List String) (key : String)
    (h : countKeyEntries env key ≤ 1) :
    ∀ kv ∈ removeEnvVar env key, strStarts kv (key ++ "=") = false := by
  induction env with
  | nil => intro kv hkv; simp [removeEnvVar] at hkv
  | cons x rest ih =>
    intro kv hkv
    by_cases hx : strStarts x (key ++ "=") = true
    · rw [removeEnvVar, if_pos hx] at hkv
      have h0 : (rest.filter (fun kv => strStarts kv (key ++ "="))).length = 0 := by
        unfold countKeyEntries at h
        rw [List.filter_cons] at h
        simp only [hx, if_true, List.length_cons] at h
        omega
      have hemp : rest.filter (fun kv => strStarts kv (key ++ "=")) = [] :=
        List.length_eq_zero.mp h0
      by_contra hcon
      rw [Bool.not_eq_false] at hcon
      have : kv ∈ rest.filter (fun kv => strStarts kv (key ++ "=")) :=
        List.mem_filter.mpr ⟨hkv, hcon⟩
      rw [hemp] at this
      simp at this
    · rw [removeEnvVar, if_neg hx] at hkv
      have hx' : strStarts x (key ++ "=") = false := by
        simpa using hx
      have hcount : countKeyEntries rest key ≤ 1 := by
        unfold countKeyEntries at h ⊢
        rw [List.filter_cons] at h
        simp only [hx', Bool.false_eq_true, if_false] at h
        exact h
      rcases List.mem_cons.mp hkv with hkv | hkv
      · subst hkv
        exact hx'
      · exact ih hcount kv hkv

/-- Removing entries for one key does not increase the count for another. -/
theorem countKeyEntries_removeEnvVar_le (env : List String) (k k' : String) :
    countKeyEntries (removeEnvVar env k') k ≤ countKeyEntries env k :=
  ((removeEnvVar_sublist env k').filter _).length_le

/-- Claim C8 is false as stated: with a duplicate CC entry in the ambient
environment and a determined cross-compilation triple, the environment handed
to the cargo build still contains a CC entry — only the first one is removed. -/
theorem c8_counterexample :
    (Target.DetermineCargoTarget ⟨"linux", "amd64", "", true⟩).1 ≠ ""
    ∧ buildEnv ⟨"linux", "amd64", "", true⟩ ["CC=gcc", "CC=clang"] = ["CC=clang"]
    ∧ strStarts "CC=clang" "CC=" = true := by
  refine ⟨by decide, by decide, by decide⟩

/-- Claim C8 as amended: when a non-empty triple was determined, the first
entry for each of CC, CXX, AR is removed; if the ambient list holds at most
one entry per variable — as `os.Environ()` ordinarily provides — the
environment handed to the build contains no entry for any of them. -/
theorem c8_amended_env_sanitized (t : Target) (env : List String)
    (htriple : (Target.DetermineCargoTarget t).1 ≠ "")
    (hcc : countKeyEntries env "CC" ≤ 1)
    (hcxx : countKeyEntries env "CXX" ≤ 1)
    (har : countKeyEntries env "AR" ≤ 1) :
    ∀ kv ∈ buildEnv t env,
      strStarts kv "CC=" = false ∧ strStarts kv "CXX=" = false
        ∧ strStarts kv "AR=" = false := by
  intro kv hkv
  have hne : ((Target.DetermineCargoTarget t).1 != "") = true := by
    simpa using htriple
  rw [buildEnv, if_pos hne] at hkv
  have hsub1 := removeEnvVar_sublist (removeEnvVar (removeEnvVar env "CC") "CXX") "AR"
  have hsub2 := removeEnvVar_sublist (removeEnvVar env "CC") "CXX"
  refine ⟨?_, ?_, ?_⟩
  · exact removeEnvVar_clears env "CC" hcc kv (hsub2.subset (hsub1.subset hkv))
  · exact removeEnvVar_clears _ "CXX"
      (le_trans (countKeyEntries_removeEnvVar_le env "CXX" "CC") hcxx)
      kv (hsub1.subset hkv)
  · exact removeEnvVar_clears _ "AR"
      (le_trans (countKeyEntries_removeEnvVar_le _ "AR" "CXX")
        (le_trans (countKeyEntries_removeEnvVar_le env "AR" "CC") har))
      kv hkv

/-- Witness for C8's amended statement on a duplicate-free environment. -/
theorem c8_amended_env_sanitized_witness :
    countKeyEntries ["CC=gcc", "CXX=g++", "AR=ar", "PATH=/bin"] "CC" ≤ 1
    ∧ strStarts "PATH=/bin" "CC=" = false ∧ strStarts "PATH=/bin" "CXX=" = false
      ∧ strStarts "PATH=/bin" "AR=" = false :=
  ⟨by decide,
   c8_amended_env_sanitized ⟨"linux", "amd64", "", true⟩
     ["CC=gcc", "CXX=g++", "AR=ar", "PATH=/bin"]
     (by decide) (by decide) (by decide) (by decide) "PATH=/bin" (by decide)⟩

/-! ### Claim C9: the scratch copier is idempotent -/

/-- Claim C9: for a found, non-writable source directory — first, when the
scratch destination already exists, nothing is copied and the library's
directory becomes that destination; second, whatever branch the first
invocation took, it sets the directory to the destination and a second
invocation on its result performs no copy and changes nothing. -/
theorem c9_scratch_idempotent (fs : FS) (cache : String) (l : Library)
    (hfound : fs.found l.Dir = true) (hro : fs.writable l.Dir = false) :
    (fs.found (scratchDir cache l) = true →
      copyIfReadOnly fs cache l = .ok (fs, { l with Dir := scratchDir cache l }, false))
    ∧ (∀ fs₂ l₂ copied, copyIfReadOnly fs cache l = .ok (fs₂, l₂, copied) →
        l₂.Dir = scratchDir cache l
        ∧ copyIfReadOnly fs₂ cache l₂ = .ok (fs₂, l₂, false)) := by
  constructor
  · intro hex
    simp [copyIfReadOnly, hfound, hro, hex]
  · intro fs₂ l₂ copied hcall
    by_cases hex : fs.found (scratchDir cache l) = true
    · rw [copyIfReadOnly] at hcall
      simp [hfound, hro, hex] at hcall
      obtain ⟨hfs, hl, _⟩ := hcall
      subst hfs
      subst hl
      refine ⟨rfl, ?_⟩
      by_cases hw : fs.writable (scratchDir cache l) = true
      · simp [copyIfReadOnly, hex, hw]
      · have hw' : fs.writable (scratchDir cache l) = false := by
          simpa using hw
        have hex' : fs.found (cache ++ "/pkgconfig/" ++ l.Path ++ "@" ++ l.Version) = true := hex
        have hw2 : fs.writable (cache ++ "/pkgconfig/" ++ l.Path ++ "@" ++ l.Version) = false := hw'
        simp [copyIfReadOnly, scratchDir, hex', hw2]
    · rw [copyIfReadOnly] at hcall
      simp [hfound, hro, hex] at hcall
      obtain ⟨hfs, hl, _⟩ := hcall
      subst hfs
      subst hl
      refine ⟨rfl, ?_⟩
      simp [copyIfReadOnly, FS.afterCopy]

/-- Witness for C9: a read-only module-cache directory whose scratch
destination already exists; copying is skipped and the directory is switched. -/
theorem c9_scratch_idempotent_witness :
    (FS.mk (fun p => p == "/ro/flux" || p == "/gc/pkgconfig/github.com/influxdata/flux@v0.5.0")
        (fun _ => false)).found "/ro/flux" = true
    ∧ copyIfReadOnly
        (FS.mk (fun p => p == "/ro/flux" || p == "/gc/pkgconfig/github.com/influxdata/flux@v0.5.0")
          (fun _ => false))
        "/gc" ⟨modulePath, "v0.5.0", "/ro/flux", ⟨"linux", "amd64", "", false⟩⟩
      = .ok
          (FS.mk (fun p => p == "/ro/flux" || p == "/gc/pkgconfig/github.com/influxdata/flux@v0.5.0")
            (fun _ => false),
           ⟨modulePath, "v0.5.0", "/gc/pkgconfig/github.com/influxdata/flux@v0.5.0",
             ⟨"linux", "amd64", "", false⟩⟩,
           false) :=
  ⟨rfl,
   (c9_scratch_idempotent
      (FS.mk (fun p => p == "/ro/flux" || p == "/gc/pkgconfig/github.com/influxdata/flux@v0.5.0")
        (fun _ => false))
      "/gc" ⟨modulePath, "v0.5.0", "/ro/flux", ⟨"linux", "amd64", "", false⟩⟩
      rfl rfl).1 rfl⟩

/-! ### Parsing lemmas for the version regular expressions -/

/-- `String.data` after `List.asString` is the identity. -/
theorem data_asString (l : List Char) : (l.asString).data = l := rfl

/-- `takeWhile` walks through a block that satisfies the predicate. -/
theorem takeWhile_append_all {p : Char → Bool} (a l : List Char)
    (h : ∀ ch ∈ a, p ch = true) :
    (a ++ l).takeWhile p = a ++ l.takeWhile p := by
  induction a with
  | nil => simp
  | cons x xs ih =>
    have hx : p x = true := h x (by simp)
    simp only [List.cons_append, List.takeWhile_cons, hx, if_true]
    rw [ih (fun ch hc => h ch (by simp [hc]))]

/-- `dropWhile` walks through a block that satisfies the predicate. -/
theorem dropWhile_append_all {p : Char → Bool} (a l : List Char)
    (h : ∀ ch ∈ a, p ch = true) :
    (a ++ l).dropWhile p = l.dropWhile p := by
  induction a with
  | nil => simp
  | cons x xs ih =>
    have hx : p x = true := h x (by simp)
    simp only [List.cons_append, List.dropWhile_cons, hx, if_true]
    exact ih (fun ch hc => h ch (by simp [hc]))

/-- `spanDigits` consumes exactly a nonempty digit block when the next
character, if any, is not a digit. -/
theorem spanDigits_exact (a rest : List Char) (ha : a ≠ [])
    (hd : ∀ ch ∈ a, ch.isDigit = true)
    (hr : ∀ ch, rest.head? = some ch → ch.isDigit = false) :
    spanDigits (a ++ rest) = some (a, rest) := by
  have htw : (a ++ rest).takeWhile Char.isDigit = a := by
    rw [takeWhile_append_all a rest hd]
    have hre : rest.takeWhile Char.isDigit = [] := by
      cases rest with
      | nil => rfl
      | cons r rs =>
        have := hr r rfl
        simp [List.takeWhile_cons, this]
    simp [hre]
  have hdw : (a ++ rest).dropWhile Char.isDigit = rest := by
    rw [dropWhile_append_all a rest hd]
    cases rest with
    | nil => rfl
    | cons r rs =>
      have := hr r rfl
      simp [List.dropWhile_cons, this]
  cases a with
  | nil => exact absurd rfl ha
  | cons x xs =>
    simp only [spanDigits, htw, hdw]

/-- The `v\d+\.\d+\.\d+` fragment matches a dotted triple of digit blocks
exactly, leaving the remainder, provided the remainder does not begin with
another digit. -/
theorem matchSemverHead_exact (a b c rest : List Char)
    (ha : a ≠ []) (hda : ∀ ch ∈ a, ch.isDigit = true)
    (hb : b ≠ []) (hdb : ∀ ch ∈ b, ch.isDigit = true)
    (hc : c ≠ []) (hdc : ∀ ch ∈ c, ch.isDigit = true)
    (hr : ∀ ch, rest.head? = some ch → ch.isDigit = false) :
    matchSemverHead ('v' :: (a ++ '.' :: (b ++ '.' :: (c ++ rest))))
      = some (a, b, c, rest) := by
  have h1 : spanDigits (a ++ '.' :: (b ++ '.' :: (c ++ rest)))
      = some (a, '.' :: (b ++ '.' :: (c ++ rest))) :=
    spanDigits_exact a _ ha hda (by intro ch hch; simp at hch; subst hch; decide)
  have h2 : spanDigits (b ++ '.' :: (c ++ rest)) = some (b, '.' :: (c ++ rest)) :=
    spanDigits_exact b _ hb hdb (by intro ch hch; simp at hch; subst hch; decide)
  have h3 : spanDigits (c ++ rest) = some (c, rest) :=
    spanDigits_exact c rest hc hdc hr
  simp only [matchSemverHead, h1, h2, h3]

/-! ### Claim C2: the amended general statement -/

/-- Claim C2 as amended, over arbitrary digit runs: a describe output
`v<a>.<b>.<c>` with no suffix yields the dotted digit text with the leading
marker stripped; `v<a>.<b>.<c>-<anything>` yields `v` followed by the parsed
major, the parsed minor plus one, and patch `0` — the minor-incremented
version with no pre-release marker, never the tag itself. -/
theorem c2_amended_git_version (a b c r : List Char)
    (ha : a ≠ []) (hda : ∀ ch ∈ a, ch.isDigit = true)
    (hb : b ≠ []) (hdb : ∀ ch ∈ b, ch.isDigit = true)
    (hc : c ≠ []) (hdc : ∀ ch ∈ c, ch.isDigit = true) :
    getVersionFromGit (('v' :: (a ++ '.' :: (b ++ '.' :: c))).asString)
      = .ok ((a ++ '.' :: (b ++ '.' :: c)).asString)
    ∧ getVersionFromGit (('v' :: (a ++ '.' :: (b ++ '.' :: (c ++ '-' :: r)))).asString)
      = .ok ("v" ++ Nat.repr (digitsToNat a) ++ "." ++ Nat.repr (digitsToNat b + 1) ++ ".0") := by
  constructor
  · have hm := matchSemverHead_exact a b c [] ha hda hb hdb hc hdc
      (by intro ch hch; simp at hch)
    rw [List.append_nil] at hm
    unfold getVersionFromGit
    rw [data_asString]
    simp only [findVersionMatch, hm]
  · have hm := matchSemverHead_exact a b c ('-' :: r) ha hda hb hdb hc hdc
      (by intro ch hch; simp at hch; subst hch; decide)
    unfold getVersionFromGit
    rw [data_asString]
    simp only [findVersionMatch, hm]

/-- Witness for C2's amended statement at the claim's own inputs. -/
theorem c2_amended_git_version_witness :
    getVersionFromGit (('v' :: (['1'] ++ '.' :: (['2'] ++ '.' :: ['3']))).asString)
      = .ok ((['1'] ++ '.' :: (['2'] ++ '.' :: ['3'])).asString)
    ∧ getVersionFromGit
        (('v' :: (['1'] ++ '.' :: (['2'] ++ '.' :: (['3'] ++ '-' :: "4-abcdef".data)))).asString)
      = .ok ("v" ++ Nat.repr (digitsToNat ['1']) ++ "." ++ Nat.repr (digitsToNat ['2'] + 1) ++ ".0") :=
  ⟨(c2_amended_git_version ['1'] ['2'] ['3'] "4-abcdef".data (by decide) (by decide)
      (by decide) (by decide) (by decide) (by decide)).1,
   (c2_amended_git_version ['1'] ['2'] ['3'] "4-abcdef".data (by decide) (by decide)
      (by decide) (by decide) (by decide) (by decide)).2⟩

/-! ### Claim C3: path-derived versions bypass git -/

/-- Boolean prefix test characterised through `take`. -/
theorem isPrefixOf_iff_take (l t : List Char) :
    l.isPrefixOf t = true ↔ t.take l.length = l := by
  induction l generalizing t with
  | nil => simp [List.isPrefixOf]
  | cons x xs ih =>
    cases t with
    | nil => simp [List.isPrefixOf]
    | cons y ys =>
      show (x == y && xs.isPrefixOf ys) = true ↔ _
      rw [Bool.and_eq_true, beq_iff_eq, List.length_cons, List.take_succ_cons]
      constructor
      · rintro ⟨rfl, h2⟩
        rw [(ih ys).mp h2]
      · intro h
        injection h with h1 h2
        subst h1
        exact ⟨rfl, (ih ys).mpr h2⟩

/-- A prefix no longer than the first append component is a prefix of it. -/
theorem isPrefixOf_append_long (l q r : List Char) (hlen : l.length ≤ q.length)
    (h : l.isPrefixOf (q ++ r) = true) : l.isPrefixOf q = true := by
  rw [isPrefixOf_iff_take] at h ⊢
  rw [List.take_append_eq_append_take] at h
  have h0 : l.length - q.length = 0 := by omega
  rw [h0] at h
  simpa using h

/-- The flux module marker has no nonempty proper border: no proper prefix of
it is also a suffix of it.  This is what rules out an occurrence straddling
the boundary between an arbitrary path prefix and the marker itself. -/
theorem fluxAt_no_border :
    ∀ k : Fin fluxAt.length, k.val ≠ 0 →
      fluxAt.take k.val ≠ fluxAt.drop (fluxAt.length - k.val) := by decide

/-- No occurrence of the flux marker can begin strictly inside a block `q`
placed directly before the marker. -/
theorem fluxAt_not_straddle (q rest : List Char) (hq : q ≠ [])
    (hlen : q.length < fluxAt.length)
    (h : fluxAt.isPrefixOf (q ++ (fluxAt ++ rest)) = true) : False := by
  rw [isPrefixOf_iff_take, List.take_append_eq_append_take] at h
  have hq28 : q.take fluxAt.length = q := List.take_of_length_le (le_of_lt hlen)
  rw [hq28] at h
  have hk2 : fluxAt.length - q.length ≤ fluxAt.length := by omega
  have htake : (fluxAt ++ rest).take (fluxAt.length - q.length)
      = fluxAt.take (fluxAt.length - q.length) := by
    rw [List.take_append_eq_append_take]
    have h0 : fluxAt.length - q.length - fluxAt.length = 0 := by omega
    simp [h0]
  rw [htake] at h
  have hdrop : fluxAt.drop q.length = fluxAt.take (fluxAt.length - q.length) := by
    have hh : fluxAt.drop q.length
        = (q ++ fluxAt.take (fluxAt.length - q.length)).drop q.length := by rw [h]
    rwa [List.drop_left] at hh
  have hqpos : 1 ≤ q.length := List.length_pos.mpr hq
  have hkval : fluxAt.length - q.length < fluxAt.length := by omega
  have hql : fluxAt.length - (fluxAt.length - q.length) = q.length := by omega
  refine fluxAt_no_border ⟨fluxAt.length - q.length, hkval⟩ (by simp; omega) ?_
  rw [hql]
  exact hdrop.symm

/-- The scan of `pathCapture` skips over any block free of the flux marker and
captures the version at the marker occurrence placed after it. -/
theorem pathCapture_marker (p : List Char) (h : hasFluxAt p = false) :
    pathCapture (p ++ (fluxAt ++ "v1.2.3".data)) = some ("v1.2.3".data) := by
  induction p with
  | nil =>
    rw [List.nil_append]
    decide
  | cons ch p ih =>
    simp only [hasFluxAt, Bool.or_eq_false_iff] at h
    obtain ⟨h1, h2⟩ := h
    have hnp : fluxAt.isPrefixOf ((ch :: p) ++ (fluxAt ++ "v1.2.3".data)) = false := by
      by_contra hcon
      rw [Bool.not_eq_false] at hcon
      by_cases hl : fluxAt.length ≤ (ch :: p).length
      · have hpre := isPrefixOf_append_long fluxAt (ch :: p) (fluxAt ++ "v1.2.3".data) hl hcon
        rw [h1] at hpre
        exact Bool.false_ne_true hpre
      · exact fluxAt_not_straddle (ch :: p) ("v1.2.3".data) (by simp) (by omega) hcon
    have hnp' : fluxAt.isPrefixOf (ch :: (p ++ (fluxAt ++ "v1.2.3".data))) = false := by
      rw [← List.cons_append]
      exact hnp
    rw [List.cons_append]
    simp only [pathCapture, hnp', Bool.false_and, Bool.false_eq_true, if_false]
    exact ih h2

/-- Claim C3: a directory path formed of a marker-free prefix followed by the
module-cache segment `/github.com/influxdata/flux@v1.2.3` resolves through the
path strategy to exactly `v1.2.3`; `getVersion` then returns it whatever the
git oracle would say, and the git branch is never reached. -/
theorem c3_path_version (p : String) (h : hasFluxAt p.data = false) :
    getVersionFromPath (p ++ "/github.com/influxdata/flux@v1.2.3") = .ok "v1.2.3"
    ∧ (∀ g₁ g₂ : Except Unit String,
        getVersion g₁ (p ++ "/github.com/influxdata/flux@v1.2.3")
          = getVersion g₂ (p ++ "/github.com/influxdata/flux@v1.2.3"))
    ∧ getVersion (.error ()) (p ++ "/github.com/influxdata/flux@v1.2.3") = .ok "v1.2.3"
    ∧ getVersionUsesGit (p ++ "/github.com/influxdata/flux@v1.2.3") = false := by
  have hdata : (p ++ "/github.com/influxdata/flux@v1.2.3").data
      = p.data ++ (fluxAt ++ "v1.2.3".data) := by
    rw [String.data_append]
    rfl
  have hpath : getVersionFromPath (p ++ "/github.com/influxdata/flux@v1.2.3")
      = .ok "v1.2.3" := by
    unfold getVersionFromPath
    rw [hdata, pathCapture_marker p.data h]
    rfl
  refine ⟨hpath, ?_, ?_, ?_⟩
  · intro g₁ g₂
    unfold getVersion
    rw [hpath]
  · unfold getVersion
    rw [hpath]
  · unfold getVersionUsesGit
    rw [hpath]

/-- Witness for C3 on a concrete module-cache path. -/
theorem c3_path_version_witness :
    hasFluxAt "/home/u/go/pkg/mod".data = false
    ∧ getVersionFromPath ("/home/u/go/pkg/mod" ++ "/github.com/influxdata/flux@v1.2.3")
      = .ok "v1.2.3" :=
  ⟨by decide, (c3_path_version "/home/u/go/pkg/mod" (by decide)).1⟩

end PkgConfig
